import Mathlib

/-!
Verification of the phystech repository's channel-resolution and
position-aligned table-assembly logic (`src/phystech/file.py`).

The HDF5 container is modelled as a tree of named nodes (groups and leaf
datasets).  A structured numpy record array is modelled as a list of field
names plus rows of integer samples.  The numpy/pandas behaviour relevant to
`File.get_data_frame` is embedded explicitly:

* the `(maxPos, nCols)` matrix preallocated with `numpy.full(..., numpy.nan)`
  is modelled column-wise, each cell an `Option Int`, with the NaN missing
  sentinel rendered as `none`;
* numpy fancy-index assignment `d[rowNums, col] = vals` writes elementwise in
  order (duplicate indices: later writes overwrite earlier ones), accepts a
  negative index `i` with `-n ≤ i` by wrapping it to `n + i`, and raises
  `IndexError` when any index falls outside `[-n, n)`;
* `numpy.max` of an empty array raises, and `numpy.full` with a negative
  dimension raises.

Python exceptions surface as an `Err` value in an `Except` result.  Python's
`str.strip` is embedded as `pyStrip`, and the substring test `a in b` as
`strIn`.
-/

namespace Phystech

/-! ## Python string primitives -/

/-- Python whitespace characters stripped by `str.strip()` (ASCII subset). -/
def pyWS (c : Char) : Bool :=
  c = ' ' || c = '\t' || c = '\n' || c = '\r' || c = '\x0b' || c = '\x0c'

/-- Substring test on character lists: `listIn pat s` is Python's `pat in s`. -/
def listIn (pat : List Char) : List Char → Bool
  | [] => pat.isEmpty
  | c :: rest => pat.isPrefixOf (c :: rest) || listIn pat rest

/-- Python's substring operator `pat in s` on strings. -/
def strIn (pat s : String) : Bool := listIn pat.data s.data

/-- Python's `str.strip()` on a character list: drop leading and trailing
whitespace. -/
def pyStripList (l : List Char) : List Char :=
  ((l.dropWhile pyWS).reverse.dropWhile pyWS).reverse

/-- Python's `str.strip()`. -/
def pyStrip (s : String) : String := String.mk (pyStripList s.data)

/-! ## Data model: HDF5 container tree and structured datasets -/

/-- The in-memory contents of a leaf dataset: a numpy structured array with
named fields (`dtype.names`) and one integer per field per record row. -/
structure DsetData where
  fields : List String
  rows : List (List Int)
deriving DecidableEq

-- A node of the HDF5 hierarchy: either a group with named children or a
-- leaf dataset.  Both carry attributes (already decoded to strings, as
-- `File.get_attrs` does).
mutual
inductive Node where
  | group (attrs : List (String × String)) (children : Forest)
  | dset (attrs : List (String × String)) (data : DsetData)
inductive Forest where
  | nil
  | cons (name : String) (node : Node) (rest : Forest)
end

/-- Concatenation of two sibling lists. -/
def Forest.append : Forest → Forest → Forest
  | .nil, g => g
  | .cons n x rest, g => .cons n x (rest.append g)

/-- An open HDF5 container: the root group's attributes and children. -/
structure Container where
  rootAttrs : List (String × String)
  rootChildren : Forest

/-- Field access `dataset[fieldName]` on a structured array: the column of
values of the named field, or `none` (numpy `KeyError`) if the field does not
exist.  Rows of a structured array all have one entry per field, so the
default `0` padding of `getD` is never consulted on well-formed data. -/
def getField (d : DsetData) (f : String) : Option (List Int) :=
  (d.fields.findIdx? (· == f)).map (fun i => d.rows.map (fun r => r.getD i 0))

/-! ## Channel resolver: `File.search` via `h5py.File.visititems` -/

-- The `h5py` `visititems` recursion: visit a node (callback first, then for
-- a group its children, depth first), short-circuiting on the first callback
-- result that is not `None`.  `full` is the node's full path name relative
-- to the root (no leading slash).
mutual
def visitNode (f : String → Node → Option String) (full : String) : Node → Option String
  | .group a ch =>
    match f full (.group a ch) with
    | some r => some r
    | none => visitForest f (full ++ "/") ch
  | .dset a d => f full (.dset a d)

def visitForest (f : String → Node → Option String) (pre : String) : Forest → Option String
  | .nil => none
  | .cons n node rest =>
    match visitNode f (pre ++ n) node with
    | some r => some r
    | none => visitForest f pre rest
end

/-- The helper `File.__match__`, as the closure over `self.lastSearch = term`: return the
visited node's full path if the search term occurs in it as a substring. -/
def matchFn (term : String) : String → Node → Option String :=
  fun name _ => if strIn term name then some name else none

/-- The traversal core of `File.search`: `self.visititems(self.__match__)`.
(The update of `self.lastSearch` is modelled on `File.search` below, which
threads the object state.) -/
def search0 (c : Container) (name : String) : Option String :=
  visitForest (matchFn name) "" c.rootChildren

-- Full path of every node below the root, in the traversal order of
-- `visititems` (parent before children, siblings in stored order).
mutual
def pathsNode (full : String) : Node → List String
  | .group _ ch => full :: pathsForest (full ++ "/") ch
  | .dset _ _ => [full]

def pathsForest (pre : String) : Forest → List String
  | .nil => []
  | .cons n node rest => pathsNode (pre ++ n) node ++ pathsForest pre rest
end

/-- All full paths of a container, in `visititems` traversal order. -/
def containerPaths (c : Container) : List String :=
  pathsForest "" c.rootChildren

/-! ## Path lookup: `self[path]` -/

/-- Look up a direct child of a group by name (`h5py` group indexing; child
names are unique within a real HDF5 group). -/
def Forest.find : Forest → String → Option Node
  | .nil, _ => none
  | .cons n node rest, s => if n = s then some node else rest.find s

/-- Walk a `/`-separated path, segment by segment, from a group's children. -/
def lookupSegs : Forest → List String → Option Node
  | _, [] => none
  | ch, [s] => ch.find s
  | ch, s :: rest =>
    match ch.find s with
    | some (.group _ ch2) => lookupSegs ch2 rest
    | _ => none

/-- Split a full path on `/` into segments. -/
def splitPath (p : String) : List String :=
  (p.data.splitOn '/').map (fun l => String.mk l)

/-- Indexing `self[path]` for a full path relative to the root. -/
def containerLookup (c : Container) (p : String) : Option Node :=
  lookupSegs c.rootChildren (splitPath p)

/-! ## Errors raised by the Python code -/

/-- The Python exceptions the embedded operations can raise.
`missingMaster` is the constructor's
`KeyError('Master pos counter dataset %s not found.')` — the
`MissingMasterChannel` failure of the spec. -/
inductive Err where
  | missingMaster
  | badKey
  | keyError
  | notADataset
  | fieldNotFound
  | fieldIndexError
  | emptyArray
  | indexOOB
  | negativeDim
deriving DecidableEq

/-- Reading the dataset stored at an explicit full path: `self[path][...]`.
Fails if the path does not resolve or resolves to a group. -/
def readAtPath (c : Container) (p : String) : Except Err DsetData :=
  match containerLookup c p with
  | some (.dset _ d) => .ok d
  | some (.group _ _) => .error .notADataset
  | none => .error .keyError

/-- The container-level core of `File.get_data`:
`self[self.search(datasetName)][...]`.  When the search yields `None`, the
indexing `self[None]` raises (`badKey`); otherwise the node at the resolved
path is read, failing if it is a group. -/
def get_dataC (c : Container) (name : String) : Except Err DsetData :=
  match search0 c name with
  | none => .error .badKey
  | some p =>
    match containerLookup c p with
    | some (.dset _ d) => .ok d
    | some (.group _ _) => .error .notADataset
    | none => .error .keyError

/-! ## Column assembly: the write loop of `File.get_data_frame` -/

/-- Numpy's normalization of a (valid) possibly negative index into a length
`n` axis. -/
def normIdx (n : Nat) (i : Int) : Nat :=
  if i < 0 then (i + n).toNat else i.toNat

/-- Numpy fancy-index assignment `d[rowNums, col] = vals` on one column of
length `nRows`, starting from the NaN-filled column: raise `IndexError` when
any index falls outside `[-nRows, nRows)`, otherwise write elementwise in
order (negative indices wrap; repeated indices are overwritten in order). -/
def npWriteColumn (nRows : Nat) (rowNums vals : List Int) : Except Err (List (Option Int)) :=
  if rowNums.all (fun i => decide (-(nRows : Int) ≤ i) && decide (i < (nRows : Int))) then
    .ok ((rowNums.zip vals).foldl
      (fun col rv => col.set (normIdx nRows rv.1) (some rv.2))
      (List.replicate nRows none))
  else .error .indexOOB

/-- One iteration of the `get_data_frame` loop body after the dataset has
been fetched: extract `dataset[self.posCounter]`, subtract 1 to convert to
0-based row indices, extract the value field `dataset[dataset.dtype.names[1]]`
and scatter it into a fresh NaN column. -/
def buildCol (posC : String) (nRows : Nat) (ds : DsetData) : Except Err (List (Option Int)) :=
  match getField ds posC with
  | none => .error .fieldNotFound
  | some pos =>
    match ds.fields[1]? with
    | none => .error .fieldIndexError
    | some vname =>
      match getField ds vname with
      | none => .error .fieldNotFound
      | some vals => npWriteColumn nRows (pos.map (fun p => p - 1)) vals

/-! ## Summary string: `File.print_attrs` and the cached `info` -/

/-- The attribute block of `File.print_attrs`: one `key:\tvalue` line per
attribute, in stored order (the order of `get_attrs(...).items()`). -/
def attrLines : List (String × String) → String
  | [] => ""
  | (k, v) :: rest => k ++ ":\t" ++ v ++ "\n" ++ attrLines rest

/-- The children block of `File.print_attrs`: one line per child name, groups
and datasets alike (`for group in obj.keys()`). -/
def nameLines : Forest → String
  | .nil => ""
  | .cons n _ rest => n ++ "\n" ++ nameLines rest

/-- The method `File.print_attrs` applied to a node: attribute lines, then (for a group)
a `Groups:` section listing every child, the whole result stripped. -/
def print_attrs (obj : Node) : String :=
  match obj with
  | .group attrs ch => pyStrip (attrLines attrs ++ "\nGroups:\n" ++ nameLines ch)
  | .dset attrs _ => pyStrip (attrLines attrs)

/-- The summary string cached as `self.info` by the constructor: the absolute
file name, the root's `print_attrs` output, and the `MaxPosCounter` line.
`fileName` stands for `os.path.abspath(self.filename)`. -/
def mkInfo (c : Container) (fileName : String) (maxPos : Int) : String :=
  fileName ++ "\n\n" ++ print_attrs (.group c.rootAttrs c.rootChildren)
    ++ "\n\nMaxPosCounter:\t" ++ toString maxPos

/-! ## The File object -/

/-- The state of a constructed `File` object.  `lastSearch` is the attribute
`self.lastSearch` that `File.search` assigns on every call. -/
structure File where
  container : Container
  filename : String
  posCounter : String
  posMaster : String
  maxPos : Int
  info : String
  lastSearch : String

/-- The constructor `File.__init__` after the underlying `h5py.File` has been opened as
`container`: resolve the master channel (raising the missing-master
`KeyError` when the search result is falsy), read it back through
`get_data`, take the maximum of its position-counter field, and cache the
summary string.  The final `lastSearch` is the master's full path, assigned
by the `get_data` call.  `fileName` stands for the absolute file name. -/
def File.init (c : Container) (fileName posMaster posCounter : String) : Except Err File :=
  match search0 c posMaster with
  | none => .error .missingMaster
  | some p =>
    if p = "" then .error .missingMaster
    else
      match get_dataC c p with
      | .error e => .error e
      | .ok ds =>
        match getField ds posCounter with
        | none => .error .fieldNotFound
        | some col =>
          match col.max? with
          | none => .error .emptyArray
          | some m =>
            .ok { container := c, filename := fileName, posCounter := posCounter,
                  posMaster := p, maxPos := m,
                  info := mkInfo c fileName m, lastSearch := p }

/-- The method `File.__str__`: return the cached summary. -/
def File.str (f : File) : String := f.info

/-- The method `File.search`: assign `self.lastSearch = name`, then run the traversal. -/
def File.search (f : File) (name : String) : File × Option String :=
  ({ f with lastSearch := name }, search0 f.container name)

/-- The method `File.get_data`: `self[self.search(datasetName)][...]` — the inner
`search` call assigns `self.lastSearch = datasetName`. -/
def File.get_data (f : File) (name : String) : File × Except Err DsetData :=
  ({ f with lastSearch := name }, get_dataC f.container name)

/-- The column loop of `File.get_data_frame`, threading the `lastSearch`
attribute that each inner `get_data` call assigns.  The loop aborts on the
first failing column. -/
def gdfLoop (c : Container) (posC : String) (nRows : Nat) (last : String) :
    List String → String × Except Err (List (String × List (Option Int)))
  | [] => (last, .ok [])
  | a :: rest =>
    match get_dataC c a with
    | .error e => (a, .error e)
    | .ok ds =>
      match buildCol posC nRows ds with
      | .error e => (a, .error e)
      | .ok colData =>
        match gdfLoop c posC nRows a rest with
        | (l, .error e) => (l, .error e)
        | (l, .ok cols) => (l, .ok ((a, colData) :: cols))

/-- The method `File.get_data_frame` (CSV export elided): preallocate the
`(maxPos, nCols)` NaN matrix — raising if `maxPos` is negative — then fill
one labelled column per requested name.  The resulting DataFrame is modelled
as its list of labelled columns; columns are written independently. -/
def File.get_data_frame (f : File) (args : List String) :
    File × Except Err (List (String × List (Option Int))) :=
  if f.maxPos < 0 then (f, .error .negativeDim)
  else
    match gdfLoop f.container f.posCounter f.maxPos.toNat f.lastSearch args with
    | (l, r) => ({ f with lastSearch := l }, r)

/-! ## Spec-side auxiliary definitions -/

/-- The names of the children of a group, in stored order (`obj.keys()`). -/
def Forest.names : Forest → List String
  | .nil => []
  | .cons n _ rest => n :: rest.names

/-- The names of only those children that are groups. -/
def Forest.groupNames : Forest → List String
  | .nil => []
  | .cons n (.group _ _) rest => n :: rest.groupNames
  | .cons _ (.dset _ _) rest => rest.groupNames

/-- Lines joined by single newlines (no trailing newline). -/
def linesSep : List String → String
  | [] => ""
  | [a] => a
  | a :: rest => a ++ "\n" ++ linesSep rest

/-- The first character of `s` exists and is not Python whitespace. -/
def headNonWS (s : String) : Bool :=
  match s.data with
  | [] => false
  | c :: _ => !pyWS c

/-- The last character of `s` exists and is not Python whitespace. -/
def lastNonWS (s : String) : Bool :=
  match s.data.getLast? with
  | none => false
  | some c => !pyWS c

/-- The summary format that claim C8 asserts, written from the claim's words
for comparison with the code's actual summary: one `key:\tvalue` line per
root attribute, a blank-line separated `Groups:` section listing the
immediate child GROUP names, and a trailing `MaxPosCounter:\t<int>` line,
with nothing before or after these parts. -/
def infoFormatClaimC8 (c : Container) (maxPos : Int) : String :=
  attrLines c.rootAttrs ++ "\nGroups:\n"
    ++ String.join ((c.rootChildren.groupNames).map (fun n => n ++ "\n"))
    ++ "\nMaxPosCounter:\t" ++ toString maxPos

/-! ## Concrete demonstration containers -/

/-- Master channel samples: position counters `[1, 3, 5]`, so `maxPos = 5`. -/
def dsMaster : DsetData := ⟨["PosCounter", "Timer"], [[1, 0], [3, 0], [5, 0]]⟩

/-- The synthetic channel of the spec's alignment property: position
counters `[1, 3, 5]`, values `[10, 20, 30]`. -/
def dsChanA : DsetData := ⟨["PosCounter", "Value"], [[1, 10], [3, 20], [5, 30]]⟩

/-- A channel holding a sample whose position counter 6 exceeds maxPos 5. -/
def dsChanB : DsetData := ⟨["PosCounter", "Value"], [[6, 99]]⟩

/-- Demonstration container: master channel plus two data channels. -/
def demoC : Container :=
  ⟨[("k", "v")],
   .cons "PosCountTimer" (.dset [] dsMaster)
     (.cons "chanA" (.dset [] dsChanA)
       (.cons "chanB" (.dset [] dsChanB) .nil))⟩

/-- The File object that constructing over `demoC` yields. -/
def demoFile : File :=
  ⟨demoC, "/tmp/demo.h5", "PosCounter", "PosCountTimer", 5,
   mkInfo demoC "/tmp/demo.h5" 5, "PosCountTimer"⟩

/-- Demonstration container whose root has both a group child and a dataset
child, to compare the summary format against claim C8's format. -/
def demo8 : Container :=
  ⟨[("k", "v")],
   .cons "PosCountTimer" (.dset [] dsMaster)
     (.cons "g" (.group [] .nil)
       (.cons "d" (.dset [] dsChanA) .nil))⟩

/-- The File object that constructing over `demo8` yields. -/
def demo8File : File :=
  ⟨demo8, "/tmp/demo.h5", "PosCounter", "PosCountTimer", 5,
   mkInfo demo8 "/tmp/demo.h5" 5, "PosCountTimer"⟩

/-- A dataset stored under the name `zab`. -/
def dsZab : DsetData := ⟨["PosCounter", "Value"], [[1, 111]]⟩

/-- A dataset stored under the name `ab`: its own full path `ab` is a
substring of the earlier sibling path `zab`. -/
def dsAb : DsetData := ⟨["PosCounter", "Value"], [[1, 222]]⟩

/-- Demonstration container in which the full path `ab` of one dataset is a
substring of the path `zab` of an earlier sibling, so a search for the full
path `ab` resolves to `zab`. -/
def demoR : Container :=
  ⟨[],
   .cons "PosCountTimer" (.dset [] dsMaster)
     (.cons "zab" (.dset [] dsZab)
       (.cons "ab" (.dset [] dsAb) .nil))⟩

/-- The File object that constructing over `demoR` yields. -/
def demoRFile : File :=
  ⟨demoR, "/tmp/demo.h5", "PosCounter", "PosCountTimer", 5,
   mkInfo demoR "/tmp/demo.h5" 5, "PosCountTimer"⟩

/-- Extra siblings appended after a match, for the short-circuit property. -/
def extraF : Forest := .cons "extra" (.dset [] dsChanA) .nil

/-! ## Helper lemmas: the traversal as a first-match search -/

theorem find?_append {α} (l₁ l₂ : List α) (p : α → Bool) :
    (l₁ ++ l₂).find? p = ((l₁.find? p).orElse fun _ => l₂.find? p) := by
  induction l₁ with
  | nil => simp
  | cons a t ih => by_cases h : p a <;> simp [List.find?, h, ih]

mutual
theorem visitNode_eq_find (nm full : String) (node : Node) :
    visitNode (matchFn nm) full node = (pathsNode full node).find? (fun p => strIn nm p) := by
  cases node with
  | group a ch =>
    simp only [visitNode, pathsNode, matchFn, List.find?]
    by_cases h : strIn nm full <;> simp [h, visitForest_eq_find nm (full ++ "/") ch]
  | dset a d =>
    simp only [visitNode, pathsNode, matchFn, List.find?]
    by_cases h : strIn nm full <;> simp [h]

theorem visitForest_eq_find (nm pre : String) (l : Forest) :
    visitForest (matchFn nm) pre l = (pathsForest pre l).find? (fun p => strIn nm p) := by
  cases l with
  | nil => simp [visitForest, pathsForest]
  | cons n node rest =>
    simp only [visitForest, pathsForest, find?_append]
    rw [visitNode_eq_find nm (pre ++ n) node, visitForest_eq_find nm pre rest]
    cases (pathsNode (pre ++ n) node).find? (fun p => strIn nm p) <;> simp [Option.orElse]
end

/-- The traversal of `File.search` returns exactly the first full path, in
`visititems` order, that contains the search term as a substring. -/
theorem search0_eq_find (c : Container) (nm : String) :
    search0 c nm = (containerPaths c).find? (fun p => strIn nm p) :=
  visitForest_eq_find nm "" c.rootChildren

theorem pathsForest_append (pre : String) (l₁ l₂ : Forest) :
    pathsForest pre (l₁.append l₂) = pathsForest pre l₁ ++ pathsForest pre l₂ := by
  cases l₁ with
  | nil => simp [Forest.append, pathsForest]
  | cons n node rest =>
    simp [Forest.append, pathsForest, pathsForest_append pre rest l₂]

/-! ## Helper lemmas: the substring relation -/

theorem isPrefixOf_iff_exists (l m : List Char) :
    l.isPrefixOf m = true ↔ ∃ t, m = l ++ t := by
  induction l generalizing m with
  | nil => simp [List.isPrefixOf]
  | cons a as ih =>
    cases m with
    | nil => simp [List.isPrefixOf]
    | cons b bs =>
      simp only [List.isPrefixOf, Bool.and_eq_true, beq_iff_eq, ih, List.cons_append,
        List.cons.injEq]
      constructor
      · rintro ⟨rfl, t, rfl⟩; exact ⟨t, rfl, rfl⟩
      · rintro ⟨t, rfl, rfl⟩; exact ⟨rfl, t, rfl⟩

theorem listIn_iff_exists (pat s : List Char) :
    listIn pat s = true ↔ ∃ l r, s = l ++ pat ++ r := by
  induction s with
  | nil =>
    simp only [listIn, List.isEmpty_iff]
    constructor
    · rintro rfl; exact ⟨[], [], rfl⟩
    · rintro ⟨l, r, h⟩
      rcases List.append_eq_nil.mp (List.append_eq_nil.mp h.symm).1 with ⟨-, h2⟩
      exact h2
  | cons c rest ih =>
    simp only [listIn, Bool.or_eq_true, isPrefixOf_iff_exists, ih]
    constructor
    · rintro (⟨t, ht⟩ | ⟨l, r, rfl⟩)
      · exact ⟨[], t, by simp [ht]⟩
      · exact ⟨c :: l, r, by simp⟩
    · rintro ⟨l, r, h⟩
      cases l with
      | nil => exact Or.inl ⟨r, by simpa using h⟩
      | cons x l2 =>
        simp only [List.cons_append, List.cons.injEq] at h
        exact Or.inr ⟨l2, r, h.2⟩

theorem strIn_refl (s : String) : strIn s s = true := by
  rw [strIn, listIn_iff_exists]
  exact ⟨[], [], by simp⟩

theorem strIn_trans (a b c : String) (h1 : strIn a b = true) (h2 : strIn b c = true) :
    strIn a c = true := by
  rw [strIn, listIn_iff_exists] at h1 h2 ⊢
  obtain ⟨l1, r1, h1⟩ := h1
  obtain ⟨l2, r2, h2⟩ := h2
  exact ⟨l2 ++ l1, r1 ++ r2, by simp [h2, h1]⟩

theorem find?_mono_first {α} (l : List α) (p q : α → Bool) (a : α)
    (h : l.find? p = some a) (hqa : q a = true) (himp : ∀ x, q x = true → p x = true) :
    l.find? q = some a := by
  induction l with
  | nil => simp at h
  | cons b t ih =>
    rw [List.find?] at h ⊢
    cases hpb : p b with
    | true =>
      rw [hpb] at h
      have hab : b = a := by simpa using h
      subst hab
      rw [hqa]
    | false =>
      rw [hpb] at h
      have hqb : q b = false := by
        cases hq : q b with
        | true => exact absurd (himp b hq) (by simp [hpb])
        | false => rfl
      rw [hqb]
      exact ih h

/-- Searching again for an already-resolved full path re-finds that path:
no earlier node can contain it, because no earlier node contains the
original search term. -/
theorem search0_idem (c : Container) (nm p : String) (h : search0 c nm = some p) :
    search0 c p = some p := by
  rw [search0_eq_find] at h ⊢
  have hp : strIn nm p = true := by simpa using List.find?_some h
  exact find?_mono_first _ _ _ _ h (strIn_refl p) (fun x hx => strIn_trans nm p x hp hx)

/-! ## Helper lemmas: inversion of the constructor and of get_data -/

theorem get_dataC_ok_elim (c : Container) (name : String) (ds : DsetData)
    (h : get_dataC c name = .ok ds) :
    ∃ p a, search0 c name = some p ∧ containerLookup c p = some (.dset a ds) := by
  unfold get_dataC at h
  split at h
  · simp at h
  · rename_i p hs
    split at h
    · rename_i a d hl
      have hd : d = ds := by simpa using h
      exact ⟨p, a, hs, by rw [hl, hd]⟩
    · simp at h
    · simp at h

theorem init_ok_elim (c : Container) (fn pm pc : String) (fs : File)
    (h : File.init c fn pm pc = .ok fs) :
    ∃ p ds col m, search0 c pm = some p ∧ get_dataC c p = .ok ds ∧
      getField ds pc = some col ∧ col.max? = some m ∧
      fs = { container := c, filename := fn, posCounter := pc, posMaster := p,
             maxPos := m, info := mkInfo c fn m, lastSearch := p } := by
  unfold File.init at h
  split at h
  · simp at h
  · rename_i p hs
    split at h
    · simp at h
    · split at h
      · simp at h
      · rename_i ds hg
        split at h
        · simp at h
        · rename_i col hf
          split at h
          · simp at h
          · rename_i m hm
            exact ⟨p, ds, col, m, hs, hg, hf, hm, (by simpa using h.symm)⟩

/-! ## Claim theorems -/

/-- C2: for every container and name, the resolver `File.search` performs a
depth-first traversal from the root, visiting every node (group and leaf) in
traversal order, and returns the full path of the first node whose full path
contains the name as a substring; it halts on that first match, so appending
further siblings or subtrees after a match leaves the result unchanged. -/
theorem c2_resolver_first_match :
    (∀ (c : Container) (name : String),
      search0 c name = (containerPaths c).find? (fun p => strIn name p))
    ∧ (∀ (c : Container) (extra : Forest) (name : String),
      (search0 c name).isSome →
      search0 ⟨c.rootAttrs, c.rootChildren.append extra⟩ name = search0 c name) := by
  constructor
  · exact fun c name => search0_eq_find c name
  · intro c extra name hsome
    rw [search0_eq_find] at hsome
    obtain ⟨a, ha⟩ := Option.isSome_iff_exists.mp hsome
    have h1 : search0 ⟨c.rootAttrs, c.rootChildren.append extra⟩ name
        = ((containerPaths c).find? (fun p => strIn name p)).orElse
            (fun _ => (pathsForest "" extra).find? (fun p => strIn name p)) := by
      rw [search0_eq_find]
      show (pathsForest "" (c.rootChildren.append extra)).find? _ = _
      rw [pathsForest_append, find?_append]
      rfl
    rw [h1, search0_eq_find, ha]
    rfl

/-- Witness for C2 at concrete inputs: appending an extra sibling after the
match for `chanA` does not change the search result. -/
theorem c2_resolver_first_match_witness :
    search0 demoC "chanA" = (containerPaths demoC).find? (fun p => strIn "chanA" p)
    ∧ search0 ⟨demoC.rootAttrs, demoC.rootChildren.append extraF⟩ "chanA"
        = search0 demoC "chanA" :=
  ⟨c2_resolver_first_match.1 demoC "chanA",
   c2_resolver_first_match.2 demoC extraF "chanA" (by decide)⟩

/-- C3: constructing a File with a posMaster short name that matches no node
fails with the missing-master-channel error, leaving no object; when
construction succeeds, maxPos is the maximum of the master channel's
position-counter field. -/
theorem c3_master_channel :
    (∀ (c : Container) (fn pm pc : String),
      search0 c pm = none → File.init c fn pm pc = .error .missingMaster)
    ∧ (∀ (c : Container) (fn pm pc : String) (fs : File),
      File.init c fn pm pc = .ok fs →
      ∃ a ds col, containerLookup fs.container fs.posMaster = some (.dset a ds) ∧
        getField ds fs.posCounter = some col ∧ col.max? = some fs.maxPos) := by
  constructor
  · intro c fn pm pc h
    unfold File.init
    rw [h]
  · intro c fn pm pc fs h
    obtain ⟨p, ds, col, m, hs, hg, hf, hm, rfl⟩ := init_ok_elim c fn pm pc fs h
    obtain ⟨p2, a, hs2, hl⟩ := get_dataC_ok_elim c p ds hg
    have hpp : p2 = p := by
      have := search0_idem c pm p hs
      rw [this] at hs2
      exact (Option.some.inj hs2).symm
    subst hpp
    exact ⟨a, ds, col, hl, hf, hm⟩

/-- Witness for C3 at concrete inputs: `zzz` matches nothing in `demoC`, so
construction fails; construction over `demoC` with the real master succeeds
and its maxPos 5 is the maximum of the master's PosCounter column. -/
theorem c3_master_channel_witness :
    File.init demoC "/tmp/demo.h5" "zzz" "PosCounter" = .error .missingMaster
    ∧ ∃ a ds col, containerLookup demoFile.container demoFile.posMaster = some (.dset a ds) ∧
        getField ds demoFile.posCounter = some col ∧ col.max? = some demoFile.maxPos :=
  ⟨c3_master_channel.1 demoC "/tmp/demo.h5" "zzz" "PosCounter" (by decide),
   c3_master_channel.2 demoC "/tmp/demo.h5" "PosCountTimer" "PosCounter" demoFile (by rfl)⟩

/-- C5: when no node's full path contains the name, the traversal-based
resolver returns the not-found signal `none` (it is a total function — no
crash). -/
theorem c5_not_found (c : Container) (name : String)
    (h : ∀ p ∈ containerPaths c, strIn name p = false) :
    search0 c name = none := by
  rw [search0_eq_find, List.find?_eq_none]
  intro x hx
  simp [h x hx]

/-- Witness for C5 at concrete inputs: `zzz` occurs in no path of `demoC`. -/
theorem c5_not_found_witness : search0 demoC "zzz" = none :=
  c5_not_found demoC "zzz" (by decide)

/-! ## Helper lemmas: the elementwise write loop -/

theorem writeLoop_getElem (n : Nat) (rs : List (Int × Int)) (acc : List (Option Int)) (j : Nat)
    (hj : j < acc.length) :
    (rs.foldl (fun col rv => col.set (normIdx n rv.1) (some rv.2)) acc)[j]? =
      match rs.reverse.find? (fun rv => normIdx n rv.1 == j) with
      | some rv => some (some rv.2)
      | none => acc[j]? := by
  induction rs generalizing acc with
  | nil => simp
  | cons rv rest ih =>
    rw [List.foldl_cons, List.reverse_cons, find?_append]
    rw [ih (acc.set (normIdx n rv.1) (some rv.2)) (by simpa using hj)]
    cases hf : rest.reverse.find? (fun rv => normIdx n rv.1 == j) with
    | some rv2 => rfl
    | none =>
      have hred : ((none : Option (Int × Int)).orElse
            fun _ => List.find? (fun rv => normIdx n rv.1 == j) [rv])
          = List.find? (fun rv => normIdx n rv.1 == j) [rv] := rfl
      rw [hred]
      by_cases he : normIdx n rv.1 = j
      · simp only [List.find?, he, beq_self_eq_true]
        subst he
        exact List.getElem?_set_self hj
      · simp only [List.find?, beq_eq_false_iff_ne.mpr he]
        exact List.getElem?_set_ne he

/-! ## Claims about the assembled table -/

/-- C1: over `demoC`, whose channel `chanA` has position counters `[1, 3, 5]`
and values `[10, 20, 30]`, construction succeeds with maxPos 5 and the
assembled column for `chanA` is `[10, NaN, 20, NaN, 30]` (NaN as `none`):
each value lands in row `positionCounter - 1`, untouched rows keep the
missing sentinel. -/
theorem c1_alignment :
    File.init demoC "/tmp/demo.h5" "PosCountTimer" "PosCounter" = .ok demoFile
    ∧ demoFile.maxPos = 5
    ∧ (File.get_data_frame demoFile ["chanA"]).2 =
        .ok [("chanA", [some 10, none, some 20, none, some 30])] :=
  ⟨rfl, rfl, rfl⟩

/-- C6: when `npWriteColumn` succeeds, every cell within range holds the
value of the LAST sample written to that row (first match in reverse write
order); rows no sample maps to stay `none`.  Writes overwrite, they never
accumulate. -/
theorem c6_overwrite (nRows : Nat) (rowNums vals : List Int) (col : List (Option Int)) (j : Nat)
    (hok : npWriteColumn nRows rowNums vals = .ok col) (hj : j < nRows) :
    col[j]? = some (((rowNums.zip vals).reverse.find? (fun rv => normIdx nRows rv.1 == j)).map
      (fun rv => rv.2)) := by
  unfold npWriteColumn at hok
  split at hok
  · have hcol : col = (rowNums.zip vals).foldl
        (fun col rv => col.set (normIdx nRows rv.1) (some rv.2))
        (List.replicate nRows none) := by simpa using hok.symm
    rw [hcol, writeLoop_getElem nRows _ _ j (by simpa using hj)]
    cases hf : (rowNums.zip vals).reverse.find? (fun rv => normIdx nRows rv.1 == j) with
    | some rv => rfl
    | none => simp [List.getElem?_replicate, hj]
  · simp at hok

/-- Witness for C6 at concrete inputs: two writes to row 0 leave the second
value 9 in the cell. -/
theorem c6_overwrite_witness :
    ([some 9, none, none] : List (Option Int))[0]? =
      some (((([(0 : Int), 0]).zip [(7 : Int), 9]).reverse.find?
        (fun rv => normIdx 3 rv.1 == 0)).map (fun rv => rv.2)) :=
  c6_overwrite 3 [0, 0] [7, 9] [some 9, none, none] 0 (by rfl) (by decide)

/-- C4 as amended: the assembly has no bounds guard producing a
SchemaViolation; instead, a channel containing a sample whose position
counter exceeds maxPos makes the fancy-index assignment raise the generic
IndexError, so the whole build fails and no out-of-bounds write occurs. -/
theorem c4_unchecked_bounds (nRows : Nat) (pos vals : List Int)
    (h : ∃ p ∈ pos, (nRows : Int) < p) :
    npWriteColumn nRows (pos.map (fun p => p - 1)) vals = .error .indexOOB := by
  unfold npWriteColumn
  rw [if_neg]
  intro hall
  rw [List.all_eq_true] at hall
  obtain ⟨p, hp, hlt⟩ := h
  have := hall (p - 1) (List.mem_map.mpr ⟨p, hp, rfl⟩)
  simp only [Bool.and_eq_true, decide_eq_true_eq] at this
  omega

/-- Witness for C4's amended claim at concrete inputs: one sample with
position counter 6 against maxPos 5. -/
theorem c4_unchecked_bounds_witness :
    npWriteColumn 5 ([(6 : Int)].map (fun p => p - 1)) [99] = .error .indexOOB :=
  c4_unchecked_bounds 5 [6] [99] ⟨6, by decide, by decide⟩

/-- Counterexample to C4 as stated: over `demoC` (maxPos 5), requesting
`chanB`, whose single sample has position counter 6, does NOT perform an
unchecked in-matrix write with no error — the build aborts with the
IndexError of the fancy-index assignment, producing no table. -/
theorem c4_unchecked_bounds_counterexample :
    (File.get_data_frame demoFile ["chanB"]).2 = .error .indexOOB := rfl

/-! ## Helper lemmas: the summary string -/

theorem attrLines_eq (l : List (String × String)) (h : l ≠ []) :
    attrLines l = linesSep (l.map (fun kv => kv.1 ++ ":\t" ++ kv.2)) ++ "\n" := by
  cases l with
  | nil => exact absurd rfl h
  | cons kv rest =>
    cases rest with
    | nil =>
      apply String.ext
      simp [attrLines, linesSep, String.data_append]
    | cons kv2 rest2 =>
      have ih := attrLines_eq (kv2 :: rest2) (by simp)
      have h1 : attrLines (kv :: kv2 :: rest2)
          = kv.1 ++ ":\t" ++ kv.2 ++ "\n" ++ attrLines (kv2 :: rest2) := rfl
      have h2 : linesSep ((kv :: kv2 :: rest2).map (fun kv => kv.1 ++ ":\t" ++ kv.2))
          = (kv.1 ++ ":\t" ++ kv.2) ++ "\n"
            ++ linesSep ((kv2 :: rest2).map (fun kv => kv.1 ++ ":\t" ++ kv.2)) := rfl
      rw [h1, ih, h2]
      apply String.ext
      simp [String.data_append]

theorem nameLines_eq (ch : Forest) (h : ch ≠ .nil) :
    nameLines ch = linesSep ch.names ++ "\n" := by
  cases ch with
  | nil => exact absurd rfl h
  | cons n node rest =>
    cases rest with
    | nil =>
      apply String.ext
      simp [nameLines, Forest.names, linesSep, String.data_append]
    | cons m node2 rest2 =>
      have ih := nameLines_eq (.cons m node2 rest2) (fun hh => Forest.noConfusion hh)
      have h1 : nameLines (.cons n node (.cons m node2 rest2))
          = n ++ "\n" ++ nameLines (.cons m node2 rest2) := rfl
      have h2 : linesSep (Forest.names (.cons n node (.cons m node2 rest2)))
          = n ++ "\n" ++ linesSep (Forest.names (.cons m node2 rest2)) := rfl
      rw [h1, ih, h2]
      apply String.ext
      simp [String.data_append]

theorem dropWhile_head?_false (p : Char → Bool) (l : List Char) (c : Char)
    (hh : l.head? = some c) (hc : p c = false) : l.dropWhile p = l := by
  cases l with
  | nil => simp at hh
  | cons a t =>
    have ha : a = c := by simpa using hh
    subst ha
    rw [List.dropWhile_cons, if_neg (by simp [hc])]

theorem pyStrip_append_newline (s : String) (hh : headNonWS s = true)
    (hl : lastNonWS s = true) : pyStrip (s ++ "\n") = s := by
  apply String.ext
  show pyStripList (s ++ "\n").data = s.data
  rw [String.data_append]
  have hnl : ("\n" : String).data = ['\n'] := rfl
  rw [hnl]
  unfold headNonWS at hh
  unfold lastNonWS at hl
  cases hd : s.data with
  | nil => rw [hd] at hh; simp at hh
  | cons c t =>
    rw [hd] at hh hl
    have hc : pyWS c = false := by simpa using hh
    cases hgl : (c :: t).getLast? with
    | none => simp at hgl
    | some cl =>
      rw [hgl] at hl
      have hcl : pyWS cl = false := by simpa using hl
      unfold pyStripList
      rw [dropWhile_head?_false pyWS ((c :: t) ++ ['\n']) c (by simp) hc]
      rw [List.reverse_append]
      have h1 : (['\n'] : List Char).reverse ++ (c :: t).reverse
          = '\n' :: (c :: t).reverse := by simp
      rw [h1, List.dropWhile_cons, if_pos (by decide)]
      rw [dropWhile_head?_false pyWS (c :: t).reverse cl
        (by rw [List.head?_reverse]; exact hgl) hcl]
      exact List.reverse_reverse _

theorem headNonWS_append (a b : String) (h : headNonWS a = true) :
    headNonWS (a ++ b) = true := by
  unfold headNonWS at h ⊢
  rw [String.data_append]
  cases ha : a.data with
  | nil => rw [ha] at h; simp at h
  | cons c t => rw [ha] at h; simpa using h

theorem lastNonWS_append (a b : String) (h : lastNonWS b = true) :
    lastNonWS (a ++ b) = true := by
  unfold lastNonWS at h ⊢
  rw [String.data_append, List.getLast?_append]
  cases hb : b.data.getLast? with
  | none => rw [hb] at h; simp at h
  | some c => rw [hb] at h; simpa using h

/-! ## Claims about the summary and the object state -/

/-- C7: the summary text is the string cached at construction; `__str__`
returns it verbatim, and no operation (search, get_data, get_data_frame)
changes it — only constructing a new object rebuilds it. -/
theorem c7_summary_stable (f : File) (name : String) (args : List String) :
    File.str f = f.info
    ∧ (File.search f name).1.info = f.info
    ∧ (File.get_data f name).1.info = f.info
    ∧ (File.get_data_frame f args).1.info = f.info := by
  refine ⟨rfl, rfl, rfl, ?_⟩
  unfold File.get_data_frame
  split
  · rfl
  · rfl

/-- C8 as amended: the summary text is the absolute file name, a blank line,
one `key:\tvalue` line per root attribute, a blank-line separated `Groups:`
section listing ALL immediate children (datasets included, not only
groups), and a trailing `MaxPosCounter:\t<int>` line.  The two regularity
hypotheses say the first attribute line does not begin, and the last child
name does not end, with whitespace, so the final `strip` removes exactly
the trailing newline. -/
theorem c8_summary_format_amended (c : Container) (fn pm pc : String) (fs : File)
    (hinit : File.init c fn pm pc = .ok fs)
    (hA : headNonWS (linesSep (c.rootAttrs.map (fun kv => kv.1 ++ ":\t" ++ kv.2))) = true)
    (hN : lastNonWS (linesSep c.rootChildren.names) = true) :
    fs.info = fn ++ "\n\n"
      ++ linesSep (c.rootAttrs.map (fun kv => kv.1 ++ ":\t" ++ kv.2))
      ++ "\n\nGroups:\n" ++ linesSep c.rootChildren.names
      ++ "\n\nMaxPosCounter:\t" ++ toString fs.maxPos := by
  obtain ⟨p, ds, col, m, hs, hg, hf, hm, rfl⟩ := init_ok_elim c fn pm pc fs hinit
  show mkInfo c fn m = _
  have hAne : c.rootAttrs ≠ [] := by
    intro h0
    rw [h0] at hA
    simp only [List.map_nil, linesSep] at hA
    exact absurd hA (by decide)
  have hNne : c.rootChildren ≠ Forest.nil := by
    intro h0
    rw [h0] at hN
    simp only [Forest.names, linesSep] at hN
    exact absurd hN (by decide)
  have hgrp : print_attrs (.group c.rootAttrs c.rootChildren)
      = pyStrip (attrLines c.rootAttrs ++ "\nGroups:\n" ++ nameLines c.rootChildren) := rfl
  have hshape : attrLines c.rootAttrs ++ "\nGroups:\n" ++ nameLines c.rootChildren
      = (linesSep (c.rootAttrs.map (fun kv => kv.1 ++ ":\t" ++ kv.2))
          ++ "\n\nGroups:\n" ++ linesSep c.rootChildren.names) ++ "\n" := by
    rw [attrLines_eq _ hAne, nameLines_eq _ hNne]
    apply String.ext
    simp [String.data_append]
  have hstrip : print_attrs (.group c.rootAttrs c.rootChildren)
      = linesSep (c.rootAttrs.map (fun kv => kv.1 ++ ":\t" ++ kv.2))
          ++ "\n\nGroups:\n" ++ linesSep c.rootChildren.names := by
    rw [hgrp, hshape]
    exact pyStrip_append_newline _
      (headNonWS_append _ _ (headNonWS_append _ _ hA))
      (lastNonWS_append _ _ hN)
  unfold mkInfo
  rw [hstrip]
  apply String.ext
  simp [String.data_append]

/-- Witness for C8's amended claim at concrete inputs: the summary of the
`demo8` container has exactly the amended format. -/
theorem c8_summary_format_amended_witness :
    demo8File.info = "/tmp/demo.h5" ++ "\n\n"
      ++ linesSep (demo8.rootAttrs.map (fun kv => kv.1 ++ ":\t" ++ kv.2))
      ++ "\n\nGroups:\n" ++ linesSep demo8.rootChildren.names
      ++ "\n\nMaxPosCounter:\t" ++ toString demo8File.maxPos :=
  c8_summary_format_amended demo8 "/tmp/demo.h5" "PosCountTimer" "PosCounter" demo8File
    rfl (by decide) (by decide)

/-- Counterexample to C8 as stated: over `demo8` the actual summary differs
from the claimed format — the absolute file name and a blank line precede
the attribute lines, and the `Groups:` section lists dataset children too,
not only groups. -/
theorem c8_summary_format_counterexample :
    File.init demo8 "/tmp/demo.h5" "PosCountTimer" "PosCounter" = .ok demo8File
    ∧ demo8File.info ≠ infoFormatClaimC8 demo8 demo8File.maxPos :=
  ⟨rfl, by decide⟩

/-- Counterexample to C9 as stated: calling the resolver DOES change the
object's state — it overwrites the `lastSearch` attribute with its
argument. -/
theorem c9_resolver_frame_counterexample :
    (File.search demoFile "q").1.lastSearch ≠ demoFile.lastSearch := by decide

/-- C9 as amended: the resolver is pure read access to the container — it
leaves the container and every field other than `lastSearch` unchanged and
its result is a function of the container alone — but it does assign the
search term to the object's `lastSearch` attribute. -/
theorem c9_resolver_frame_amended (f : File) (name : String) :
    (File.search f name).2 = search0 f.container name
    ∧ (File.search f name).1.container = f.container
    ∧ (File.search f name).1.info = f.info
    ∧ (File.search f name).1.filename = f.filename
    ∧ (File.search f name).1.posCounter = f.posCounter
    ∧ (File.search f name).1.posMaster = f.posMaster
    ∧ (File.search f name).1.maxPos = f.maxPos
    ∧ (File.search f name).1.lastSearch = name :=
  ⟨rfl, rfl, rfl, rfl, rfl, rfl, rfl, rfl⟩

/-- C10: `File.get_data` re-runs the substring resolver on its argument and
reads the dataset at the resolved path; a name that resolves to nothing
makes the call fail with an error rather than return a not-found signal;
and an argument that is already a full path is still treated as a substring
target — over `demoR`, `get_data "ab"` returns the dataset stored at `zab`,
not the one stored at `ab`. -/
theorem c10_get_data_resolves_then_reads :
    (∀ (f : File) (name : String),
      (File.get_data f name).2 =
        match search0 f.container name with
        | none => Except.error Err.badKey
        | some p => readAtPath f.container p)
    ∧ (∀ (f : File) (name : String), search0 f.container name = none →
        ∃ e, (File.get_data f name).2 = Except.error e)
    ∧ (File.get_data demoRFile "ab").2 = .ok dsZab
    ∧ readAtPath demoR "ab" = .ok dsAb
    ∧ dsZab ≠ dsAb := by
  refine ⟨?_, ?_, by rfl, by rfl, by decide⟩
  · intro f name
    show get_dataC f.container name = _
    unfold get_dataC readAtPath
    cases search0 f.container name <;> rfl
  · intro f name h
    refine ⟨Err.badKey, ?_⟩
    show get_dataC f.container name = _
    unfold get_dataC
    rw [h]

/-- Witness for C10 at concrete inputs: a name resolving to nothing makes
`get_data` fail with an error. -/
theorem c10_get_data_resolves_then_reads_witness :
    ∃ e, (File.get_data demoRFile "zzz").2 = Except.error e :=
  c10_get_data_resolves_then_reads.2.1 demoRFile "zzz" (by rfl)

end Phystech
